import Mathlib

/-!
# Verification of the artifact-retrieval and archive-staging pipeline

Shallow embedding of the retrieval/staging core of the
`react-native-skia-binaries` repository (`src/generate-packages.ts`,
`src/download-binaries.ts`, `src/postinstall.mjs`) together with proofs
about its behaviour.

The embedding models:
* the download retry loop `downloadWithRetry` inside `downloadToFile`
  (identical in all three scripts), with per-attempt outcomes supplied as
  a function `Nat → Option DownloadError` (attempt index ↦ failure, if any);
* the redirect-following `request` closure inside `downloadToFile`,
  driven by a deterministic `server : String → HttpResponse` and a fuel
  bound for the (in the source unbounded) redirect recursion;
* an in-memory filesystem `FSNode` and on it the recursive `copyDir`,
  the payload-root discovery of `downloadAndExtractAsset`
  (generate-packages / postinstall) and of `downloadArtifact`
  (download-binaries), and the staging copy loop;
* the candidate loop of `extractTarGz` over an abstract
  `exec : String → ExecOutcome`;
* `deriveNpmVersion` (the `^m(\d+)([a-z])?$` milestone parser); and
* `isInstalled` plus the entry-point decision of `postinstall.mjs`.
-/

namespace SkiaBinaries

/-! ## String helpers

`String.includes` / `String.endsWith` of JavaScript, implemented by
structural recursion on the character lists so that concrete instances
reduce in the kernel. -/

/-- Does the character list `s` start with `pat`? (`List.isPrefixOf` as a
structurally recursive Bool, matching JavaScript `startsWith`). -/
def charListStartsWith : List Char → List Char → Bool
  | _, [] => true
  | [], _ :: _ => false
  | a :: as, b :: bs => a == b && charListStartsWith as bs

/-- Does the character list `s` contain `pat` as a contiguous sublist?
(JavaScript `String.prototype.includes`). -/
def charListIncludes : List Char → List Char → Bool
  | [], pat => charListStartsWith [] pat
  | s :: rest, pat => charListStartsWith (s :: rest) pat || charListIncludes rest pat

/-- JavaScript `s.includes(pat)`. -/
def strIncludes (s pat : String) : Bool :=
  charListIncludes s.data pat.data

/-- JavaScript `s.endsWith(pat)`. -/
def strEndsWith (s pat : String) : Bool :=
  charListStartsWith s.data.reverse pat.data.reverse

/-! ## Download errors and the retry loop

From `downloadToFile` (src/generate-packages.ts lines 314–407,
src/postinstall.mjs lines 91–179, src/download-binaries.ts lines 135–228 —
the three copies are identical up to log text). -/

/-- An error produced by one download attempt: the `DownloadError` interface
(`statusCode?: number; code?: string` on top of `Error.message`). -/
structure DownloadError where
  statusCode : Option Nat
  message : String
  code : Option String
  deriving Repr, DecidableEq

/-- `error.statusCode === 403 || error.message.includes("rate limit")`. -/
def isRateLimit (e : DownloadError) : Bool :=
  e.statusCode == some 403 || strIncludes e.message "rate limit"

/-- The failure classes the retry loop retries:
rate limit, `ECONNRESET` or `ETIMEDOUT`. -/
def retryable (e : DownloadError) : Bool :=
  isRateLimit e || e.code == some "ECONNRESET" || e.code == some "ETIMEDOUT"

/-- `retryCount < maxRetries && (isRateLimit || code === "ECONNRESET" || code === "ETIMEDOUT")`. -/
def shouldRetry (maxRetries retryCount : Nat) (e : DownloadError) : Bool :=
  decide (retryCount < maxRetries) && retryable e

/-- Result of running the retry loop: the final outcome, the number of
download attempts performed, and the list of backoff delays (in
milliseconds) slept between consecutive attempts, in order. -/
structure RetryResult where
  result : Except DownloadError Unit
  attempts : Nat
  delays : List Nat
  deriving Repr

/-- The recursive `downloadWithRetry(retryCount)` closure.
`outcomes k` is the result of the `(k+1)`-th call of `attemptDownload`
(`none` = resolved, `some e` = rejected with `e`).

The source recursion terminates because `shouldRetry` requires
`retryCount < maxRetries`; here that metric is made explicit as a `fuel`
argument (the wrapper `downloadWithRetryFrom0` passes `fuel = maxRetries`,
so `fuel = maxRetries - retryCount` throughout and the `fuel = 0` branch
below, which behaves like the no-retry branch, is never reached). -/
def downloadWithRetry (outcomes : Nat → Option DownloadError) (maxRetries : Nat) :
    Nat → Nat → RetryResult
  | fuel, retryCount =>
    match outcomes retryCount with
    | none => ⟨Except.ok (), retryCount + 1, []⟩
    | some e =>
      if shouldRetry maxRetries retryCount e then
        match fuel with
        | 0 => ⟨Except.error e, retryCount + 1, []⟩
        | fuel + 1 =>
          let rest := downloadWithRetry outcomes maxRetries fuel (retryCount + 1)
          ⟨rest.result, rest.attempts, 2 ^ retryCount * 1000 :: rest.delays⟩
      else
        ⟨Except.error e, retryCount + 1, []⟩

/-- `downloadWithRetry()` as invoked by `downloadToFile`: retry count starts
at `0`. -/
def downloadWithRetryFrom0 (outcomes : Nat → Option DownloadError) (maxRetries : Nat) :
    RetryResult :=
  downloadWithRetry outcomes maxRetries maxRetries 0

/-! ## The redirect-following `request` closure

From the `request(currentUrl)` closure of `attemptDownload` inside
`downloadToFile` (src/generate-packages.ts lines 323–376). The HTTP world
is a deterministic `server : String → HttpResponse`; the source recursion
on `Location` headers is unbounded (a redirect cycle would recurse
forever), so it is embedded with an explicit `fuel` bound that every
theorem instantiates with enough fuel for the chain at hand. -/

/-- The parts of a Node.js `http.IncomingMessage` the code consults:
`statusCode`, `statusMessage`, the `location` header and the body bytes. -/
structure HttpResponse where
  statusCode : Nat
  statusMessage : String
  location : Option String
  body : List Nat
  deriving Repr

/-- `[301, 302, 303, 307, 308]` — the statuses treated as redirects. -/
def redirectStatuses : List Nat := [301, 302, 303, 307, 308]

/-- One `request(currentUrl)` evaluation. Returns the list of URLs
requested (in order) and the resolution: body bytes on status 200, a
`DownloadError` otherwise. The `fuel = 0` case stands for the (in the
source non-terminating) exhaustion of the redirect chain and is never
reached in any theorem below. -/
def request (server : String → HttpResponse) :
    Nat → String → List String × Except DownloadError (List Nat)
  | 0, url => ([url], Except.error ⟨none, "redirect recursion exhausted", none⟩)
  | fuel + 1, url =>
    let res := server url
    if redirectStatuses.contains res.statusCode then
      match res.location with
      | some loc =>
        let rest := request server fuel loc
        (url :: rest.1, rest.2)
      | none =>
        ([url], Except.error ⟨none, "Redirect without location for " ++ url, none⟩)
    else if res.statusCode ≠ 200 then
      ([url],
       Except.error
         ⟨some res.statusCode,
          "Failed to download: " ++ toString res.statusCode ++ " " ++ res.statusMessage,
          none⟩)
    else
      ([url], Except.ok res.body)

/-- The outcome of one `attemptDownload()` against a deterministic server
(`none` = resolved, `some e` = rejected with `e`). -/
def attemptOutcome (server : String → HttpResponse) (fuel : Nat) (url : String) :
    Option DownloadError :=
  match (request server fuel url).2 with
  | Except.ok _ => none
  | Except.error e => some e

/-- `downloadToFile(url, destPath, maxRetries)` against a deterministic
server: every attempt runs the same `request(url)`. -/
def downloadToFile (server : String → HttpResponse) (fuel : Nat) (url : String)
    (maxRetries : Nat) : RetryResult :=
  downloadWithRetryFrom0 (fun _ => attemptOutcome server fuel url) maxRetries

/-! ## The in-memory filesystem and `copyDir`

`FSNode` models one filesystem object as the code observes it through
`lstatSync` / `statSync` / `readdirSync`: a regular file with its bytes, a
directory with its (uniquely named) entries, or a special file (socket,
FIFO, character or block device). `copyDir` is the recursive copy of
src/generate-packages.ts lines 443–467 (identical in the other two
scripts), copying into a fresh destination as at every call site of the
repository. -/

/-- A filesystem object. -/
inductive FSNode where
  | file (content : List Nat) : FSNode
  | dir (entries : List (String × FSNode)) : FSNode
  | special : FSNode
  deriving Repr

/-- `lstat.isSocket() || lstat.isFIFO() || lstat.isCharacterDevice() || lstat.isBlockDevice()`. -/
def isSpecialNode : FSNode → Bool
  | FSNode.special => true
  | _ => false

/-- `copyDir(src, dest)` with `dest` fresh: recursively copies `src`,
skipping special files, descending into directories and copying regular
files byte-for-byte. Returns the entries of the destination directory. -/
def copyDir : List (String × FSNode) → List (String × FSNode)
  | [] => []
  | (_, FSNode.special) :: rest => copyDir rest
  | (name, FSNode.dir es) :: rest => (name, FSNode.dir (copyDir es)) :: copyDir rest
  | (name, FSNode.file c) :: rest => (name, FSNode.file c) :: copyDir rest

/-- Are all the trees of an entry list free of special files, at every
depth? -/
def entriesSpecialFree : List (String × FSNode) → Bool
  | [] => true
  | (_, FSNode.special) :: _ => false
  | (_, FSNode.dir es) :: rest => entriesSpecialFree es && entriesSpecialFree rest
  | (_, FSNode.file _) :: rest => entriesSpecialFree rest

/-! ## Payload discovery and staging

From `downloadAndExtractAsset` (src/generate-packages.ts lines 469–536,
src/postinstall.mjs lines 246–306) and `downloadArtifact`
(src/download-binaries.ts lines 290–357). -/

/-- Look up a directory entry by name (`fs.existsSync` / `fs.statSync` on
`path.join(dir, name)`). -/
def lookupEntry (name : String) (entries : List (String × FSNode)) : Option FSNode :=
  match entries.find? (fun e => e.1 == name) with
  | some e => some e.2
  | none => none

/-- Payload-root discovery of `downloadAndExtractAsset`: starting from the
extraction directory, descend into a single wrapping top-level directory,
and within it into `srcSubdir` when that is given (and truthy: JavaScript
treats `""` as false) and exists as a directory. Returns the entries of
the resolved `sourceDir`. -/
def resolveSourceDir (extracted : List (String × FSNode)) (srcSubdir : Option String) :
    List (String × FSNode) :=
  match extracted with
  | [(_, FSNode.dir es)] =>
    match srcSubdir with
    | some sub =>
      if sub == "" then es
      else
        match lookupEntry sub es with
        | some (FSNode.dir subEs) => subEs
        | _ => es
    | none => es
  | _ => extracted

/-- Payload-root discovery of `downloadArtifact` (download-binaries.ts):
identical except that the `srcSubdir` descent checks only
`fs.existsSync`, not `isDirectory()`; descending into a non-directory
makes the subsequent `fs.readdirSync(sourceDir)` raise `ENOTDIR`. -/
def resolveSrcDirArtifact (extracted : List (String × FSNode)) (srcSubdir : String) :
    Except String (List (String × FSNode)) :=
  match extracted with
  | [(_, FSNode.dir es)] =>
    if srcSubdir == "" then Except.ok es
    else
      match lookupEntry srcSubdir es with
      | none => Except.ok es
      | some (FSNode.dir subEs) => Except.ok subEs
      | some _ => Except.error "ENOTDIR"
  | _ => Except.ok extracted

/-- The staging copy loop: for each item of the resolved payload root,
directories are copied with `copyDir` and anything else with
`fs.copyFileSync`. The destination is fresh (the repository's call sites
copy into a directory that was just created or cleared). -/
def stageCopy (sourceEntries : List (String × FSNode)) : List (String × FSNode) :=
  sourceEntries.map fun e =>
    match e with
    | (name, FSNode.dir es) => (name, FSNode.dir (copyDir es))
    | (name, node) => (name, node)

/-- The typed failure of one fetch-and-stage operation. -/
inductive PipelineError where
  | download (e : DownloadError) : PipelineError
  | extract (msg : String) : PipelineError
  | noContents : PipelineError
  | fsError (msg : String) : PipelineError
  deriving Repr, DecidableEq

/-- The message carried by a pipeline failure. -/
def PipelineError.message : PipelineError → String
  | PipelineError.download e => e.message
  | PipelineError.extract msg => msg
  | PipelineError.noContents => "Archive extracted but no contents found"
  | PipelineError.fsError msg => msg

/-- Result of one fetch-and-stage operation: the outcome, the final
entries of the destination directory, and whether the per-operation
scratch directory was removed. -/
structure PipelineResult where
  outcome : Except PipelineError Unit
  dest : List (String × FSNode)
  tempDeleted : Bool
  deriving Repr

/-- The body of the `try` block of `downloadAndExtractAsset`
(generate-packages / postinstall): download, extract, check for contents,
resolve the payload root and copy it into the destination. The outcomes
of the two awaited I/O steps are supplied as `downloadResult` and
`extractResult`; `dest0` is the prior content of the destination (empty
at every call site, directories being freshly created or cleared). -/
def tryBody (downloadResult : Except DownloadError Unit)
    (extractResult : Except String (List (String × FSNode)))
    (srcSubdir : Option String) (dest0 : List (String × FSNode)) :
    Except PipelineError (List (String × FSNode)) :=
  match downloadResult with
  | Except.error e => Except.error (PipelineError.download e)
  | Except.ok _ =>
    match extractResult with
    | Except.error msg => Except.error (PipelineError.extract msg)
    | Except.ok extracted =>
      if extracted.length = 0 then Except.error PipelineError.noContents
      else Except.ok (dest0 ++ stageCopy (resolveSourceDir extracted srcSubdir))

/-- `downloadAndExtractAsset`: run the `try` body; on the success path
`fs.rmSync(tempDir, ...)` removes the scratch directory, and the `catch`
branch removes it as well and rethrows the original error. -/
def downloadAndExtractAsset (downloadResult : Except DownloadError Unit)
    (extractResult : Except String (List (String × FSNode)))
    (srcSubdir : Option String) (dest0 : List (String × FSNode)) : PipelineResult :=
  match tryBody downloadResult extractResult srcSubdir dest0 with
  | Except.ok dest => ⟨Except.ok (), dest, true⟩
  | Except.error e => ⟨Except.error e, dest0, true⟩

/-- `downloadArtifact` (download-binaries.ts): the same pipeline but with
`resolveSrcDirArtifact` and, notably, without any check that the
extraction directory is non-empty. -/
def downloadArtifact (downloadResult : Except DownloadError Unit)
    (extractResult : Except String (List (String × FSNode)))
    (srcSubdir : String) (dest0 : List (String × FSNode)) : PipelineResult :=
  match downloadResult with
  | Except.error e => ⟨Except.error (PipelineError.download e), dest0, true⟩
  | Except.ok _ =>
    match extractResult with
    | Except.error msg => ⟨Except.error (PipelineError.extract msg), dest0, true⟩
    | Except.ok extracted =>
      match resolveSrcDirArtifact extracted srcSubdir with
      | Except.error msg => ⟨Except.error (PipelineError.fsError msg), dest0, true⟩
      | Except.ok sourceEntries =>
        ⟨Except.ok (), dest0 ++ stageCopy sourceEntries, true⟩

/-! ## `extractTarGz`: the candidate-executable loop

From src/generate-packages.ts lines 409–441 (the loop of
src/postinstall.mjs lines 181–216 is identical up to the final message and
candidate list). Subprocess behaviour is abstracted as
`exec : String → ExecOutcome`. -/

/-- What spawning one candidate does: the process runs and exits with a
code, or spawning itself fails (`ENOENT` for a missing executable). -/
inductive ExecOutcome where
  | exit (code : Nat) : ExecOutcome
  | spawnErr (errCode : String) : ExecOutcome
  deriving Repr, DecidableEq

/-- An error as observed by the candidate loop: its message and the
optional `err.code`. -/
structure SysError where
  message : String
  code : Option String
  deriving Repr, DecidableEq

/-- `runCommand(command, args)`: resolves on exit code 0, rejects with
`Command <command> exited with code <code>` on a non-zero exit, and
rejects with the spawn error (carrying `err.code`) when spawning fails. -/
def runCommand (exec : String → ExecOutcome) (command : String) : Except SysError Unit :=
  match exec command with
  | ExecOutcome.exit 0 => Except.ok ()
  | ExecOutcome.exit code =>
    Except.error ⟨"Command " ++ command ++ " exited with code " ++ toString code, none⟩
  | ExecOutcome.spawnErr c =>
    Except.error ⟨"spawn " ++ command ++ " " ++ c, some c⟩

/-- The `for (const candidate of candidates)` loop of `extractTarGz`,
threading `lastError`. Returns the final result together with the list of
candidates actually tried, in order. -/
def extractLoop (exec : String → ExecOutcome) :
    List String → Option SysError → Except String Unit × List String
  | [], lastError =>
    (Except.error ("Failed to extract: " ++
        (match lastError with
         | some err => err.message
         | none => "unknown error")),
     [])
  | c :: rest, _lastError =>
    match runCommand exec c with
    | Except.ok _ => (Except.ok (), [c])
    | Except.error err =>
      let newLast :=
        if err.code == some "ENOENT" then some ⟨"Command " ++ c ++ " not found", none⟩
        else some err
      let r := extractLoop exec rest newLast
      (r.1, c :: r.2)

/-- `extractTarGz(archivePath, destDir)` over its candidate list
(`["tar"]` off Windows; `tar.exe`, the `System32` copy and — in the
postinstall variant — `bsdtar` variants on Windows). `lastError` starts
unset. -/
def extractTarGz (exec : String → ExecOutcome) (candidates : List String) :
    Except String Unit × List String :=
  extractLoop exec candidates none

/-- The message `extractTarGz` records for a failing candidate: the
not-found message for `ENOENT`, otherwise the error of `runCommand`. -/
def candidateFailureMessage (exec : String → ExecOutcome) (c : String) : String :=
  match runCommand exec c with
  | Except.ok _ => ""
  | Except.error err =>
    if err.code == some "ENOENT" then "Command " ++ c ++ " not found" else err.message

/-! ## `deriveNpmVersion`

From src/generate-packages.ts lines 266–281: the regular expression
`^m(\d+)([a-z])?$`, major taken as the matched digit string, minor
`suffix.charCodeAt(0) - "a".charCodeAt(0) + 1` (0 without a suffix). -/

/-- `deriveNpmVersion(skiaVersion)`; `Except.error` models the thrown
`Invalid skia version format` error. The regular expression
`^m(\d+)([a-z])?$` is embedded as: a leading `m`, then the maximal digit
run (`\d+` is greedy and digits and letters do not overlap, so the match
is unique), then an empty remainder or a single `a`..`z` letter. -/
def deriveNpmVersion (skiaVersion : String) : Except String String :=
  match skiaVersion.data with
  | 'm' :: rest =>
    if rest.takeWhile Char.isDigit = [] then
      Except.error ("Invalid skia version format: " ++ skiaVersion ++
        ". Expected format: m144 or m144a")
    else
      match rest.dropWhile Char.isDigit with
      | [] => Except.ok (String.mk (rest.takeWhile Char.isDigit) ++ ".0.0")
      | [c] =>
        if 'a' ≤ c ∧ c ≤ 'z' then
          Except.ok (String.mk (rest.takeWhile Char.isDigit) ++ "." ++
            toString (c.toNat - 'a'.toNat + 1) ++ ".0")
        else
          Except.error ("Invalid skia version format: " ++ skiaVersion ++
            ". Expected format: m144 or m144a")
      | _ =>
        Except.error ("Invalid skia version format: " ++ skiaVersion ++
          ". Expected format: m144 or m144a")
  | _ =>
    Except.error ("Invalid skia version format: " ++ skiaVersion ++
      ". Expected format: m144 or m144a")

/-! ## `isInstalled` and the postinstall entry point

From src/postinstall.mjs lines 26–67: the `SKIP_SKIA_DOWNLOAD` gate runs
first; then `isInstalled()` decides whether to exit 0 without
downloading. -/

/-- One element of `pkg.skia.androidArchs`. -/
structure AndroidArchCfg where
  arch : String
  assetName : String
  srcSubdir : String
  deriving Repr

/-- The per-architecture check inside `isInstalled`: the architecture
directory exists and lists a name ending in `.a`. `Except.error` models
the `ENOTDIR` exception `fs.readdirSync` raises when the entry exists but
is not a directory. -/
def archHasStaticLib (entries : List (String × FSNode)) (cfg : AndroidArchCfg) :
    Except String Bool :=
  match lookupEntry cfg.arch entries with
  | none => Except.ok false
  | some (FSNode.dir files) =>
    Except.ok (files.any fun f => strEndsWith f.1 ".a")
  | some _ => Except.error "ENOTDIR"

/-- `androidArchs.some(...)` with the short-circuit of
`Array.prototype.some` and exception propagation. -/
def anyArchInstalled (archs : List AndroidArchCfg) (entries : List (String × FSNode)) :
    Except String Bool :=
  match archs with
  | [] => Except.ok false
  | a :: rest =>
    match archHasStaticLib entries a with
    | Except.error e => Except.error e
    | Except.ok true => Except.ok true
    | Except.ok false => anyArchInstalled rest entries

/-- `isInstalled()`: `libs` is the state of the `libs` directory (`none` =
does not exist). -/
def isInstalled (platform : String) (androidArchs : List AndroidArchCfg)
    (libs : Option (List (String × FSNode))) : Except String Bool :=
  match libs with
  | none => Except.ok false
  | some entries =>
    if entries.length = 0 then Except.ok false
    else if platform = "android" then anyArchInstalled androidArchs entries
    else if platform = "apple" then
      Except.ok (entries.any fun e => strEndsWith e.1 ".xcframework")
    else
      Except.ok (decide (entries.length > 0))

/-- `process.env.SKIP_SKIA_DOWNLOAD === "1" || ... === "true"`. -/
def skipEnvSet (v : Option String) : Bool :=
  v == some "1" || v == some "true"

/-- What the postinstall entry point decides to do. -/
inductive PostinstallAction where
  /-- `SKIP_SKIA_DOWNLOAD` set: log and `process.exit(0)` before anything
  else. -/
  | skipDownload : PostinstallAction
  /-- `isInstalled()` returned true: log and `process.exit(0)` without any
  download and without touching `libs`. -/
  | alreadyInstalled : PostinstallAction
  /-- `isInstalled()` raised (unhandled exception, non-zero exit). -/
  | crash : PostinstallAction
  /-- Fall through to `main()`: clear `libs` and download. -/
  | download : PostinstallAction
  deriving Repr, DecidableEq

/-- The top-level decision sequence of src/postinstall.mjs lines 26–67. -/
def postinstallAction (skipEnv : Option String) (platform : String)
    (androidArchs : List AndroidArchCfg) (libs : Option (List (String × FSNode))) :
    PostinstallAction :=
  if skipEnvSet skipEnv then PostinstallAction.skipDownload
  else
    match isInstalled platform androidArchs libs with
    | Except.ok true => PostinstallAction.alreadyInstalled
    | Except.ok false => PostinstallAction.download
    | Except.error _ => PostinstallAction.crash

/-! ## Concrete fixtures used by witnesses and counterexamples -/

/-- A rate-limited response error: HTTP 403 as the release host sends it. -/
def err403 : DownloadError := ⟨some 403, "Failed to download: 403 Forbidden", none⟩

/-- A not-found response error: HTTP 404. -/
def err404 : DownloadError := ⟨some 404, "Failed to download: 404 Not Found", none⟩

/-- The error `request` rejects with on a redirect without `Location`. -/
def redirectNoLocationError (url : String) : DownloadError :=
  ⟨none, "Redirect without location for " ++ url, none⟩

/-- A generic I/O failure (no status code, non-network `code`). -/
def genericIOError : DownloadError :=
  ⟨none, "EACCES: permission denied, open", some "EACCES"⟩

/-- Attempt outcomes: 403 on the first four attempts, success on the fifth. -/
def outcomesFourThenOk : Nat → Option DownloadError :=
  fun k => if k < 4 then some err403 else none

/-- Attempt outcomes: 404 on every attempt. -/
def outcomesAlways404 : Nat → Option DownloadError :=
  fun _ => some err404

/-- A server answering every URL with `302 Found` and no `Location` header. -/
def server302NoLocation : String → HttpResponse :=
  fun _ => ⟨302, "Found", none, []⟩

/-- A URL whose text contains the substring `rate limit`. -/
def rateLimitUrl : String := "https://example.com/rate limited/file.tar.gz"

/-- A URL whose text does not contain the substring `rate limit`. -/
def plainUrl : String :=
  "https://github.com/shopify/react-native-skia/releases/download/skia-m144c/skia-android-arm-skia-m144c.tar.gz"

/-- A server that redirects `plainUrl` to `rateLimitUrl` and answers the
latter with `200`. -/
def serverRedirectOnce : String → HttpResponse :=
  fun url =>
    if url == plainUrl then ⟨302, "Found", some rateLimitUrl, []⟩
    else ⟨200, "OK", none, [3, 1, 4]⟩

/-- A server answering every URL with `404` and a status message that
contains the substring `rate limit`. -/
def server404RateLimit : String → HttpResponse :=
  fun _ => ⟨404, "rate limit exceeded", none, []⟩

/-- An extraction tree with a single wrapping directory whose `ios` entry
is a regular file, not a directory. -/
def wrapperSubdirFileTree : List (String × FSNode) :=
  [("wrapper", FSNode.dir [("ios", FSNode.file [1])])]

/-- An Android `libs` directory in which the first configured architecture
name exists as a regular file while the second is a directory holding a
`.a` file. -/
def crashAndroidLibs : List (String × FSNode) :=
  [("armeabi-v7a", FSNode.file [0]),
   ("arm64-v8a", FSNode.dir [("libskia.a", FSNode.file [0])])]

/-- Subprocess world: `tar.exe` is absent, the `System32` copy works. -/
def execSystem32 : String → ExecOutcome :=
  fun c =>
    if c == "tar.exe" then ExecOutcome.spawnErr "ENOENT"
    else if c == "C:\\Windows\\System32\\tar.exe" then ExecOutcome.exit 0
    else ExecOutcome.exit 1

/-- Subprocess world: no candidate exists at all. -/
def execAllMissing : String → ExecOutcome :=
  fun _ => ExecOutcome.spawnErr "ENOENT"

/-- A source tree with a named pipe alongside regular files (at two depths). -/
def pipeTree : List (String × FSNode) :=
  [("libskia.a", FSNode.file [7, 7]),
   ("pipe", FSNode.special),
   ("include", FSNode.dir [("skia.h", FSNode.file [1]), ("fifo2", FSNode.special)])]

/-- The `*.framework`-style payload entries of the C2 scenario. -/
def iosFrameworks : List (String × FSNode) :=
  [("libskia.framework", FSNode.dir [("Info.plist", FSNode.file [60])]),
   ("libskshaper.framework", FSNode.dir [("Info.plist", FSNode.file [61])])]

/-- The Ganesh `androidArchs` metadata generated for the Android package
(arch list of src/generate-packages.ts lines 179–183, asset names as
produced by `generatePackageJson` for release tag `skia-m144c`). -/
def ganeshAndroidArchs : List AndroidArchCfg :=
  [⟨"armeabi-v7a", "skia-android-arm-skia-m144c.tar.gz", "armeabi-v7a"⟩,
   ⟨"arm64-v8a", "skia-android-arm-64-skia-m144c.tar.gz", "arm64-v8a"⟩,
   ⟨"x86", "skia-android-arm-x86-skia-m144c.tar.gz", "x86"⟩,
   ⟨"x86_64", "skia-android-arm-x64-skia-m144c.tar.gz", "x86_64"⟩]

/-- A partially installed Android `libs` directory: one architecture
directory with a `.a` file, the other three absent. -/
def partialAndroidLibs : List (String × FSNode) :=
  [("arm64-v8a", FSNode.dir [("libskia.a", FSNode.file [0])])]

/-- Well-formedness of one configured architecture entry in `libs`: absent,
or present as a directory (so that `fs.readdirSync` cannot raise). -/
def archEntryWellFormed (entries : List (String × FSNode)) (cfg : AndroidArchCfg) : Prop :=
  lookupEntry cfg.arch entries = none ∨
    ∃ files, lookupEntry cfg.arch entries = some (FSNode.dir files)

/-! # Theorems

First general lemmas about the retry loop, then one theorem per claim. -/

theorem downloadWithRetry_attempts_pos (outcomes : Nat → Option DownloadError)
    (maxRetries : Nat) :
    ∀ fuel retryCount,
      retryCount < (downloadWithRetry outcomes maxRetries fuel retryCount).attempts := by
  intro fuel
  induction fuel with
  | zero =>
    intro rc
    rw [downloadWithRetry.eq_def]
    cases h : outcomes rc with
    | none => simp [h]
    | some e =>
      cases hs : shouldRetry maxRetries rc e <;> simp [h, hs]
  | succ f ih =>
    intro rc
    rw [downloadWithRetry.eq_def]
    cases h : outcomes rc with
    | none => simp [h]
    | some e =>
      cases hs : shouldRetry maxRetries rc e with
      | false => simp [h, hs]
      | true =>
        simp only [h, hs, if_true]
        have h2 := ih (rc + 1)
        omega

theorem downloadWithRetry_retried_only (outcomes : Nat → Option DownloadError)
    (maxRetries : Nat) :
    ∀ fuel retryCount k, retryCount ≤ k →
      k + 1 < (downloadWithRetry outcomes maxRetries fuel retryCount).attempts →
      ∃ e, outcomes k = some e ∧ shouldRetry maxRetries k e = true := by
  intro fuel
  induction fuel with
  | zero =>
    intro rc k hle hlt
    exfalso
    rw [downloadWithRetry.eq_def] at hlt
    cases h : outcomes rc with
    | none => simp [h] at hlt; omega
    | some e =>
      cases hs : shouldRetry maxRetries rc e <;> simp [h, hs] at hlt <;> omega
  | succ f ih =>
    intro rc k hle hlt
    rw [downloadWithRetry.eq_def] at hlt
    cases h : outcomes rc with
    | none => simp [h] at hlt; omega
    | some e =>
      cases hs : shouldRetry maxRetries rc e with
      | false => simp [h, hs] at hlt; omega
      | true =>
        simp only [h, hs, if_true] at hlt
        rcases Nat.eq_or_lt_of_le hle with heq | hlt2
        · exact ⟨e, heq ▸ h, heq ▸ hs⟩
        · exact ih (rc + 1) k hlt2 hlt

theorem downloadWithRetry_delays (outcomes : Nat → Option DownloadError)
    (maxRetries : Nat) :
    ∀ fuel retryCount,
      (downloadWithRetry outcomes maxRetries fuel retryCount).delays =
        (List.range' retryCount
            ((downloadWithRetry outcomes maxRetries fuel retryCount).attempts - 1 - retryCount)).map
          (fun k => 2 ^ k * 1000) := by
  intro fuel
  induction fuel with
  | zero =>
    intro rc
    rw [downloadWithRetry.eq_def]
    cases h : outcomes rc with
    | none => simp [h]
    | some e =>
      cases hs : shouldRetry maxRetries rc e <;> simp [h, hs]
  | succ f ih =>
    intro rc
    rw [downloadWithRetry.eq_def]
    cases h : outcomes rc with
    | none => simp [h]
    | some e =>
      cases hs : shouldRetry maxRetries rc e with
      | false => simp [h, hs]
      | true =>
        simp only [h, hs, if_true]
        have hpos := downloadWithRetry_attempts_pos outcomes maxRetries f (rc + 1)
        have hrw :
            (downloadWithRetry outcomes maxRetries f (rc + 1)).attempts - 1 - rc =
              ((downloadWithRetry outcomes maxRetries f (rc + 1)).attempts - 1 - (rc + 1)) + 1 := by
          omega
        simp only [hrw, List.range'_succ, List.map_cons]
        exact congrArg (2 ^ rc * 1000 :: ·) (ih (rc + 1))

theorem downloadWithRetryFrom0_of_not_retryable (outcomes : Nat → Option DownloadError)
    (maxRetries : Nat) (e : DownloadError) (h0 : outcomes 0 = some e)
    (hnr : retryable e = false) :
    downloadWithRetryFrom0 outcomes maxRetries = ⟨Except.error e, 1, []⟩ := by
  rw [downloadWithRetryFrom0, downloadWithRetry.eq_def]
  simp [h0, shouldRetry, hnr]

/-- C1: For every call of `downloadToFile` with `maxRetries = 5`, a retry
happens only after a retryable failure (HTTP 403, a message containing
"rate limit", `ECONNRESET` or `ETIMEDOUT`), with a sleep of `2^k` seconds
(`2^k * 1000` ms) before the `(k+1)`-th retry, `k` starting at 0; if the
first 4 attempts fail with 403 and the 5th succeeds, the call succeeds
using exactly 5 attempts after total backoff `(1+2+4+8) * 1000` ms; if all
6 attempts (1 initial + 5 retries) fail with 403, the call fails. -/
theorem C1_retry_policy (outcomes : Nat → Option DownloadError) :
    (∀ k, k + 1 < (downloadWithRetryFrom0 outcomes 5).attempts →
       ∃ e, outcomes k = some e ∧ shouldRetry 5 k e = true)
  ∧ (downloadWithRetryFrom0 outcomes 5).delays =
      (List.range ((downloadWithRetryFrom0 outcomes 5).attempts - 1)).map
        (fun k => 2 ^ k * 1000)
  ∧ ((∀ k, k < 4 → ∃ e, outcomes k = some e ∧ e.statusCode = some 403) →
       outcomes 4 = none →
       (downloadWithRetryFrom0 outcomes 5).result = Except.ok () ∧
       (downloadWithRetryFrom0 outcomes 5).attempts = 5 ∧
       (downloadWithRetryFrom0 outcomes 5).delays.sum = (1 + 2 + 4 + 8) * 1000)
  ∧ ((∀ k, k ≤ 5 → ∃ e, outcomes k = some e ∧ e.statusCode = some 403) →
       (∃ e, (downloadWithRetryFrom0 outcomes 5).result = Except.error e) ∧
       (downloadWithRetryFrom0 outcomes 5).attempts = 6) := by
  refine ⟨?_, ?_, ?_, ?_⟩
  · intro k hk
    exact downloadWithRetry_retried_only outcomes 5 5 0 k (Nat.zero_le k) hk
  · have hd := downloadWithRetry_delays outcomes 5 5 0
    rw [List.range_eq_range']
    simpa using hd
  · intro hfail hok
    obtain ⟨e0, h0, hs0⟩ := hfail 0 (by omega)
    obtain ⟨e1, h1, hs1⟩ := hfail 1 (by omega)
    obtain ⟨e2, h2, hs2⟩ := hfail 2 (by omega)
    obtain ⟨e3, h3, hs3⟩ := hfail 3 (by omega)
    have hr : ∀ k e, outcomes k = some e → e.statusCode = some 403 →
        shouldRetry 5 k e = true → True := fun _ _ _ _ _ => trivial
    repeat rw [downloadWithRetryFrom0]
    rw [downloadWithRetry.eq_def]
    simp only [h0, shouldRetry, retryable, isRateLimit, hs0, beq_self_eq_true, Bool.true_or,
      Bool.or_true, Bool.true_and, Nat.lt_irrefl]
    norm_num
    rw [downloadWithRetry.eq_def]
    simp only [h1, shouldRetry, retryable, isRateLimit, hs1, beq_self_eq_true, Bool.true_or,
      Bool.true_and]
    norm_num
    rw [downloadWithRetry.eq_def]
    simp only [h2, shouldRetry, retryable, isRateLimit, hs2, beq_self_eq_true, Bool.true_or,
      Bool.true_and]
    norm_num
    rw [downloadWithRetry.eq_def]
    simp only [h3, shouldRetry, retryable, isRateLimit, hs3, beq_self_eq_true, Bool.true_or,
      Bool.true_and]
    norm_num
    rw [downloadWithRetry.eq_def]
    simp [hok]
  · intro hfail
    obtain ⟨e0, h0, hs0⟩ := hfail 0 (by omega)
    obtain ⟨e1, h1, hs1⟩ := hfail 1 (by omega)
    obtain ⟨e2, h2, hs2⟩ := hfail 2 (by omega)
    obtain ⟨e3, h3, hs3⟩ := hfail 3 (by omega)
    obtain ⟨e4, h4, hs4⟩ := hfail 4 (by omega)
    obtain ⟨e5, h5, hs5⟩ := hfail 5 (by omega)
    repeat rw [downloadWithRetryFrom0]
    rw [downloadWithRetry.eq_def]
    simp only [h0, shouldRetry, retryable, isRateLimit, hs0, beq_self_eq_true, Bool.true_or,
      Bool.true_and]
    norm_num
    rw [downloadWithRetry.eq_def]
    simp only [h1, shouldRetry, retryable, isRateLimit, hs1, beq_self_eq_true, Bool.true_or,
      Bool.true_and]
    norm_num
    rw [downloadWithRetry.eq_def]
    simp only [h2, shouldRetry, retryable, isRateLimit, hs2, beq_self_eq_true, Bool.true_or,
      Bool.true_and]
    norm_num
    rw [downloadWithRetry.eq_def]
    simp only [h3, shouldRetry, retryable, isRateLimit, hs3, beq_self_eq_true, Bool.true_or,
      Bool.true_and]
    norm_num
    rw [downloadWithRetry.eq_def]
    simp only [h4, shouldRetry, retryable, isRateLimit, hs4, beq_self_eq_true, Bool.true_or,
      Bool.true_and]
    norm_num
    rw [downloadWithRetry.eq_def]
    simp [h5, shouldRetry, retryable, isRateLimit, hs5]

theorem C1_retry_policy_witness :
    (downloadWithRetryFrom0 outcomesFourThenOk 5).result = Except.ok () ∧
    (downloadWithRetryFrom0 outcomesFourThenOk 5).attempts = 5 ∧
    (downloadWithRetryFrom0 outcomesFourThenOk 5).delays.sum = (1 + 2 + 4 + 8) * 1000 :=
  (C1_retry_policy outcomesFourThenOk).2.2.1
    (fun k hk => ⟨err403, by simp [outcomesFourThenOk, hk], rfl⟩)
    (by simp [outcomesFourThenOk])

theorem C3_one_attempt_counterexample :
    (downloadToFile server404RateLimit 10 plainUrl 5).attempts = 6
  ∧ (downloadToFile server404RateLimit 10 plainUrl 5).delays =
      [1000, 2000, 4000, 8000, 16000]
  ∧ (downloadToFile server404RateLimit 10 plainUrl 5).result =
      Except.error ⟨some 404, "Failed to download: 404 rate limit exceeded", none⟩ :=
  ⟨rfl, rfl, rfl⟩

/-- C3 (amended): a failure of the first attempt that is not retryable
makes the call fail after exactly one attempt with zero backoff,
propagating the error unchanged; an HTTP 404 response, a redirect without
`Location`, and a generic I/O error are non-retryable *provided* their
message — which embeds the server's status message, respectively the
requested URL — does not contain the substring "rate limit" (a 404 whose
status message contains "rate limit", or a redirect-without-`Location` at
a URL containing "rate limit", is classified rate-limited and retried). -/
theorem C3_non_retryable_immediate :
    (∀ (outcomes : Nat → Option DownloadError) (maxRetries : Nat)
       (e : DownloadError), outcomes 0 = some e → retryable e = false →
       downloadWithRetryFrom0 outcomes maxRetries = ⟨Except.error e, 1, []⟩)
  ∧ (∀ sm : String,
       strIncludes ("Failed to download: 404 " ++ sm) "rate limit" = false →
       retryable ⟨some 404, "Failed to download: 404 " ++ sm, none⟩ = false)
  ∧ (∀ url : String,
       strIncludes ("Redirect without location for " ++ url) "rate limit" = false →
       retryable (redirectNoLocationError url) = false)
  ∧ (∀ (msg : String) (c : Option String), strIncludes msg "rate limit" = false →
       (c == some "ECONNRESET") = false → (c == some "ETIMEDOUT") = false →
       retryable ⟨none, msg, c⟩ = false) := by
  refine ⟨downloadWithRetryFrom0_of_not_retryable, ?_, ?_, ?_⟩
  · intro sm hsm
    simp [retryable, isRateLimit, hsm]
  · intro url hurl
    simp [retryable, isRateLimit, redirectNoLocationError, hurl]
  · intro msg c hmsg hc1 hc2
    simp [retryable, isRateLimit, hmsg, hc1, hc2]

theorem C3_non_retryable_immediate_witness :
    downloadWithRetryFrom0 outcomesAlways404 7 = ⟨Except.error err404, 1, []⟩
  ∧ retryable err404 = false
  ∧ retryable (redirectNoLocationError plainUrl) = false
  ∧ retryable genericIOError = false :=
  ⟨C3_non_retryable_immediate.1 outcomesAlways404 7 err404 rfl (by rfl),
   C3_non_retryable_immediate.2.1 "Not Found" (by rfl),
   C3_non_retryable_immediate.2.2.1 plainUrl (by rfl),
   C3_non_retryable_immediate.2.2.2 "EACCES: permission denied, open"
     (some "EACCES") (by rfl) (by rfl) (by rfl)⟩

theorem C4_without_location_counterexample :
    (downloadToFile server302NoLocation 10 rateLimitUrl 5).result =
        Except.error (redirectNoLocationError rateLimitUrl)
  ∧ (downloadToFile server302NoLocation 10 rateLimitUrl 5).attempts = 6
  ∧ (downloadToFile server302NoLocation 10 rateLimitUrl 5).delays =
      [1000, 2000, 4000, 8000, 16000] := by
  refine ⟨rfl, rfl, rfl⟩

/-- C4 (amended): on a response with status in {301, 302, 303, 307, 308},
`downloadToFile` re-issues the GET against the `Location` header value; a
redirect without `Location` makes the attempt reject with the
`Redirect without location for <url>` error, and — provided the message,
which embeds the requested URL, does not contain the substring
"rate limit" — the call fails immediately, with exactly one attempt and no
retry. -/
theorem C4_redirects (server : String → HttpResponse) (fuel : Nat) (url : String) :
    (redirectStatuses.contains (server url).statusCode = true →
       ∀ loc, (server url).location = some loc →
         request server (fuel + 1) url =
           (url :: (request server fuel loc).1, (request server fuel loc).2))
  ∧ (redirectStatuses.contains (server url).statusCode = true →
       (server url).location = none →
       request server (fuel + 1) url =
         ([url], Except.error (redirectNoLocationError url)))
  ∧ (redirectStatuses.contains (server url).statusCode = true →
       (server url).location = none →
       strIncludes ("Redirect without location for " ++ url) "rate limit" = false →
       ∀ maxRetries,
         downloadToFile server (fuel + 1) url maxRetries =
           ⟨Except.error (redirectNoLocationError url), 1, []⟩) := by
  refine ⟨?_, ?_, ?_⟩
  · intro hred loc hloc
    have hmem : (server url).statusCode ∈ redirectStatuses := by simpa using hred
    rw [request.eq_def]
    simp [hmem, hloc]
  · intro hred hloc
    have hmem : (server url).statusCode ∈ redirectStatuses := by simpa using hred
    rw [request.eq_def]
    simp [hmem, hloc, redirectNoLocationError]
  · intro hred hloc hmsg maxRetries
    have hmem : (server url).statusCode ∈ redirectStatuses := by simpa using hred
    have hattempt : attemptOutcome server (fuel + 1) url =
        some (redirectNoLocationError url) := by
      rw [attemptOutcome, request.eq_def]
      simp [hmem, hloc, redirectNoLocationError]
    have hnr : retryable (redirectNoLocationError url) = false := by
      simp [retryable, isRateLimit, redirectNoLocationError, hmsg]
    exact downloadWithRetryFrom0_of_not_retryable _ maxRetries _ hattempt hnr

theorem C4_redirects_witness :
    request serverRedirectOnce 10 plainUrl =
        (plainUrl :: (request serverRedirectOnce 9 rateLimitUrl).1,
         (request serverRedirectOnce 9 rateLimitUrl).2)
  ∧ downloadToFile server302NoLocation 10 plainUrl 5 =
      ⟨Except.error (redirectNoLocationError plainUrl), 1, []⟩ :=
  ⟨(C4_redirects serverRedirectOnce 9 plainUrl).1 (by rfl) rateLimitUrl (by rfl),
   (C4_redirects server302NoLocation 9 plainUrl).2.2 (by rfl) (by rfl) (by rfl) 5⟩

/-- C8: the scratch directory is deleted whether `downloadAndExtractAsset`
succeeds or raises, and on failure the original error is propagated
unchanged to the caller (with the destination untouched because every
failure precedes the copy step). -/
theorem C8_cleanup (downloadResult : Except DownloadError Unit)
    (extractResult : Except String (List (String × FSNode)))
    (srcSubdir : Option String) (dest0 : List (String × FSNode)) :
    (downloadAndExtractAsset downloadResult extractResult srcSubdir dest0).tempDeleted = true
  ∧ (∀ e, tryBody downloadResult extractResult srcSubdir dest0 = Except.error e →
      (downloadAndExtractAsset downloadResult extractResult srcSubdir dest0).outcome =
          Except.error e ∧
      (downloadAndExtractAsset downloadResult extractResult srcSubdir dest0).dest = dest0)
  ∧ (∀ d, tryBody downloadResult extractResult srcSubdir dest0 = Except.ok d →
      (downloadAndExtractAsset downloadResult extractResult srcSubdir dest0).outcome =
          Except.ok () ∧
      (downloadAndExtractAsset downloadResult extractResult srcSubdir dest0).dest = d) := by
  refine ⟨?_, ?_, ?_⟩
  · cases h : tryBody downloadResult extractResult srcSubdir dest0 <;>
      simp [downloadAndExtractAsset, h]
  · intro e he
    simp [downloadAndExtractAsset, he]
  · intro d hd
    simp [downloadAndExtractAsset, hd]

theorem C8_cleanup_witness :
    (downloadAndExtractAsset (Except.error err404) (Except.ok []) none []).tempDeleted = true
  ∧ (downloadAndExtractAsset (Except.error err404) (Except.ok []) none []).outcome =
      Except.error (PipelineError.download err404)
  ∧ (downloadAndExtractAsset (Except.error err404) (Except.ok []) none []).dest = [] :=
  ⟨(C8_cleanup (Except.error err404) (Except.ok []) none []).1,
   ((C8_cleanup (Except.error err404) (Except.ok []) none []).2.1
      (PipelineError.download err404) rfl).1,
   ((C8_cleanup (Except.error err404) (Except.ok []) none []).2.1
      (PipelineError.download err404) rfl).2⟩

theorem C6_empty_archive_counterexample :
    (downloadArtifact (Except.ok ()) (Except.ok []) "armeabi-v7a" []).outcome = Except.ok ()
  ∧ (downloadArtifact (Except.ok ()) (Except.ok []) "armeabi-v7a" []).dest = [] :=
  ⟨rfl, rfl⟩

/-- C6 (amended): in `downloadAndExtractAsset` (generate-packages and
postinstall), an extraction that yields zero entries fails with the error
"Archive extracted but no contents found" before any item is copied to the
destination; the `downloadArtifact` variant of download-binaries performs
no such check and instead completes successfully, copying nothing. -/
theorem C6_empty_archive (srcSubdir : Option String) (sub2 : String)
    (dest0 : List (String × FSNode)) :
    (downloadAndExtractAsset (Except.ok ()) (Except.ok []) srcSubdir dest0).outcome =
        Except.error PipelineError.noContents
  ∧ (downloadAndExtractAsset (Except.ok ()) (Except.ok []) srcSubdir dest0).dest = dest0
  ∧ PipelineError.noContents.message = "Archive extracted but no contents found"
  ∧ (downloadArtifact (Except.ok ()) (Except.ok []) sub2 dest0).outcome = Except.ok ()
  ∧ (downloadArtifact (Except.ok ()) (Except.ok []) sub2 dest0).dest = dest0 := by
  refine ⟨?_, ?_, rfl, ?_, ?_⟩
  · simp [downloadAndExtractAsset, tryBody]
  · simp [downloadAndExtractAsset, tryBody]
  · simp [downloadArtifact, resolveSrcDirArtifact]
  · simp [downloadArtifact, resolveSrcDirArtifact, stageCopy]

theorem copyDir_of_specialFree (es : List (String × FSNode)) :
    entriesSpecialFree es = true → copyDir es = es := by
  induction es using copyDir.induct with
  | case1 => intro _; rw [copyDir]
  | case2 name rest ih => intro h; simp [entriesSpecialFree] at h
  | case3 name sub rest ih1 ih2 =>
    intro h
    simp [entriesSpecialFree] at h
    rw [copyDir, ih1 h.1, ih2 h.2]
  | case4 name c rest ih =>
    intro h
    simp [entriesSpecialFree] at h
    rw [copyDir, ih h]

theorem stageCopy_of_specialFree (es : List (String × FSNode)) :
    entriesSpecialFree es = true → stageCopy es = es := by
  induction es with
  | nil => intro _; rfl
  | cons e rest ih =>
    intro h
    obtain ⟨name, node⟩ := e
    cases node with
    | file c =>
      simp only [entriesSpecialFree] at h
      simp only [stageCopy, List.map_cons]
      have := ih h
      simp only [stageCopy] at this
      rw [this]
    | dir sub =>
      simp only [entriesSpecialFree] at h
      rw [Bool.and_eq_true] at h
      simp only [stageCopy, List.map_cons]
      have h2 := ih h.2
      simp only [stageCopy] at h2
      rw [h2, copyDir_of_specialFree sub h.1]
    | special =>
      simp only [entriesSpecialFree] at h
      exact absurd h (by simp)

theorem C2_subdir_not_directory_counterexample :
    (downloadArtifact (Except.ok ()) (Except.ok wrapperSubdirFileTree)
        "ios" []).outcome = Except.error (PipelineError.fsError "ENOTDIR")
  ∧ (downloadAndExtractAsset (Except.ok ()) (Except.ok wrapperSubdirFileTree)
        (some "ios") []).outcome = Except.ok ()
  ∧ (downloadAndExtractAsset (Except.ok ()) (Except.ok wrapperSubdirFileTree)
        (some "ios") []).dest = [("ios", FSNode.file [1])] :=
  ⟨rfl, rfl, rfl⟩

/-- C2 (amended): payload discovery of the fetch-and-stage operations: a
single top-level directory becomes the payload root; within it, a
`sourceSubdir` that exists as a directory is descended into as well; any
other top-level shape keeps the extraction directory itself as the
payload root (for every `sourceSubdir`); the `wrapper/ios` tree staged
with `sourceSubdir = "ios"` puts exactly the framework entries into a
fresh destination. When `sourceSubdir` exists under the wrapper but is
*not* a directory, `downloadAndExtractAsset` (generate-packages /
postinstall) ignores it and stays at the wrapper root, whereas
`downloadArtifact` (download-binaries) checks only existence, descends,
and its subsequent `readdirSync` raises `ENOTDIR`, failing the operation
instead of staging from the wrapper. On the other shapes the discovery of
`downloadArtifact` agrees. -/
theorem C2_payload_discovery :
    (∀ name es sub subEs, sub ≠ "" →
       lookupEntry sub es = some (FSNode.dir subEs) →
       resolveSourceDir [(name, FSNode.dir es)] (some sub) = subEs)
  ∧ (∀ name es, resolveSourceDir [(name, FSNode.dir es)] none = es)
  ∧ (∀ extracted sub, (∀ name es, extracted ≠ [(name, FSNode.dir es)]) →
       resolveSourceDir extracted sub = extracted)
  ∧ (∀ w fw, entriesSpecialFree fw = true →
       (downloadAndExtractAsset (Except.ok ())
           (Except.ok [(w, FSNode.dir [("ios", FSNode.dir fw)])])
           (some "ios") []).outcome = Except.ok () ∧
       (downloadAndExtractAsset (Except.ok ())
           (Except.ok [(w, FSNode.dir [("ios", FSNode.dir fw)])])
           (some "ios") []).dest = fw)
  ∧ (∀ name es sub subEs, sub ≠ "" →
       lookupEntry sub es = some (FSNode.dir subEs) →
       resolveSrcDirArtifact [(name, FSNode.dir es)] sub = Except.ok subEs)
  ∧ (∀ e1 e2 rest sub,
       resolveSrcDirArtifact (e1 :: e2 :: rest) sub = Except.ok (e1 :: e2 :: rest))
  ∧ (∀ (name : String) (es : List (String × FSNode)) (sub : String) (node : FSNode),
       sub ≠ "" → lookupEntry sub es = some node → (∀ d, node ≠ FSNode.dir d) →
       resolveSourceDir [(name, FSNode.dir es)] (some sub) = es ∧
       resolveSrcDirArtifact [(name, FSNode.dir es)] sub =
         Except.error "ENOTDIR") := by
  refine ⟨?_, ?_, ?_, ?_, ?_, ?_, ?_⟩
  · intro name es sub subEs hsub hlook
    simp [resolveSourceDir, hlook, hsub]
  · intro name es
    simp [resolveSourceDir]
  · intro extracted sub h
    rcases extracted with _ | ⟨⟨n, node⟩, rest⟩
    · rfl
    · rcases rest with _ | ⟨e2, rest2⟩
      · cases node with
        | file c => rfl
        | special => rfl
        | dir sub2 => exact absurd rfl (h n sub2)
      · cases node <;> rfl
  · intro w fw hfree
    have hstage := stageCopy_of_specialFree fw hfree
    constructor
    · simp [downloadAndExtractAsset, tryBody, resolveSourceDir, lookupEntry]
    · simp [downloadAndExtractAsset, tryBody, resolveSourceDir, lookupEntry, hstage]
  · intro name es sub subEs hsub hlook
    simp [resolveSrcDirArtifact, hlook, hsub]
  · intro e1 e2 rest sub
    obtain ⟨n1, node1⟩ := e1
    cases node1 <;> rfl
  · intro name es sub node hsub hlook hnode
    cases node with
    | dir d => exact absurd rfl (hnode d)
    | file c =>
      exact ⟨by simp [resolveSourceDir, hlook, hsub],
             by simp [resolveSrcDirArtifact, hlook, hsub]⟩
    | special =>
      exact ⟨by simp [resolveSourceDir, hlook, hsub],
             by simp [resolveSrcDirArtifact, hlook, hsub]⟩

theorem takeWhile_all {p : Char → Bool} :
    ∀ l : List Char, (∀ c ∈ l, p c = true) →
      l.takeWhile p = l ∧ l.dropWhile p = [] := by
  intro l
  induction l with
  | nil => intro _; exact ⟨rfl, rfl⟩
  | cons a l ih =>
    intro h
    have ha := h a (by simp)
    have ih2 := ih fun c hc => h c (by simp [hc])
    simp [List.takeWhile_cons, List.dropWhile_cons, ha, ih2.1, ih2.2]

theorem takeWhile_append_last {p : Char → Bool} :
    ∀ (l : List Char) (c : Char), (∀ d ∈ l, p d = true) → p c = false →
      (l ++ [c]).takeWhile p = l ∧ (l ++ [c]).dropWhile p = [c] := by
  intro l c
  induction l with
  | nil =>
    intro _ hc
    simp [List.takeWhile_cons, List.dropWhile_cons, hc]
  | cons a l ih =>
    intro h hc
    have ha := h a (by simp)
    have ih2 := ih (fun d hd => h d (by simp [hd])) hc
    simp [List.takeWhile_cons, List.dropWhile_cons, ha, ih2.1, ih2.2]

theorem mem_takeWhile_prop {p : Char → Bool} :
    ∀ (l : List Char) (a : Char), a ∈ l.takeWhile p → p a = true := by
  intro l
  induction l with
  | nil => intro a h; simp [List.takeWhile] at h
  | cons b l ih =>
    intro a h
    rw [List.takeWhile_cons] at h
    cases hb : p b with
    | false => simp [hb] at h
    | true =>
      simp only [hb, if_true] at h
      rcases List.mem_cons.mp h with rfl | h2
      · exact hb
      · exact ih a h2

theorem isDigit_eq_false_of_lower {c : Char} (h : 'a' ≤ c) : c.isDigit = false := by
  rw [Char.le_def] at h
  have h57 : ¬ (c.val ≤ 57) := fun hle => absurd (UInt32.le_trans h hle) (by decide)
  simp [Char.isDigit, h57]

/-- C5: `deriveNpmVersion` maps `m<digits>` to `<digits>.0.0` and
`m<digits><letter>` (letter in `a`..`z`) to `<digits>.<index>.0` with
`a` ↦ 1 … `z` ↦ 26 (index `= c - 'a' + 1`), and every successful parse has
one of those two shapes — so every other input, such as `"144"` without
the leading `m`, is rejected with the input-validation error. -/
theorem C5_derive_npm_version :
    (∀ ds : List Char, ds ≠ [] → (∀ c ∈ ds, c.isDigit = true) →
       deriveNpmVersion (String.mk ('m' :: ds)) = Except.ok (String.mk ds ++ ".0.0"))
  ∧ (∀ (ds : List Char) (c : Char), ds ≠ [] → (∀ d ∈ ds, d.isDigit = true) →
       'a' ≤ c → c ≤ 'z' →
       deriveNpmVersion (String.mk ('m' :: (ds ++ [c]))) =
         Except.ok (String.mk ds ++ "." ++ toString (c.toNat - 'a'.toNat + 1) ++ ".0"))
  ∧ (∀ (s : String) (v : String), deriveNpmVersion s = Except.ok v →
       ∃ ds : List Char, ds ≠ [] ∧ (∀ d ∈ ds, d.isDigit = true) ∧
         (s.data = 'm' :: ds ∨
          ∃ c : Char, 'a' ≤ c ∧ c ≤ 'z' ∧ s.data = 'm' :: (ds ++ [c])))
  ∧ deriveNpmVersion "144" =
      Except.error "Invalid skia version format: 144. Expected format: m144 or m144a" := by
  refine ⟨?_, ?_, ?_, by rfl⟩
  · intro ds hne hdig
    have htake := takeWhile_all ds hdig
    simp [deriveNpmVersion, htake.1, htake.2, hne]
  · intro ds c hne hdig ha hz
    have htake := takeWhile_append_last ds c hdig (isDigit_eq_false_of_lower ha)
    simp [deriveNpmVersion, htake.1, htake.2, hne, ha, hz]
  · intro s v hok
    unfold deriveNpmVersion at hok
    split at hok
    case h_2 => exact absurd hok (by simp)
    case h_1 rest heq =>
      split at hok
      · exact absurd hok (by simp)
      case isFalse hne =>
        have hrest := List.takeWhile_append_dropWhile (p := Char.isDigit) (l := rest)
        split at hok
        case h_1 hdrop =>
          refine ⟨rest.takeWhile Char.isDigit, hne,
            fun d hd => mem_takeWhile_prop rest d hd, Or.inl ?_⟩
          rw [heq]
          rw [hdrop, List.append_nil] at hrest
          rw [hrest]
        case h_2 c hdrop =>
          split at hok
          case isTrue hbounds =>
            refine ⟨rest.takeWhile Char.isDigit, hne,
              fun d hd => mem_takeWhile_prop rest d hd,
              Or.inr ⟨c, hbounds.1, hbounds.2, ?_⟩⟩
            rw [heq]
            rw [hdrop] at hrest
            rw [hrest]
          case isFalse => exact absurd hok (by simp)
        case h_3 => exact absurd hok (by simp)

theorem C5_derive_npm_version_witness :
    deriveNpmVersion "m144" = Except.ok "144.0.0"
  ∧ deriveNpmVersion "m144a" = Except.ok "144.1.0"
  ∧ deriveNpmVersion "m144c" = Except.ok "144.3.0"
  ∧ deriveNpmVersion "m144z" = Except.ok "144.26.0" :=
  ⟨C5_derive_npm_version.1 ['1', '4', '4'] (by decide) (by decide),
   C5_derive_npm_version.2.1 ['1', '4', '4'] 'a' (by decide) (by decide)
     (by decide) (by decide),
   C5_derive_npm_version.2.1 ['1', '4', '4'] 'c' (by decide) (by decide)
     (by decide) (by decide),
   C5_derive_npm_version.2.1 ['1', '4', '4'] 'z' (by decide) (by decide)
     (by decide) (by decide)⟩

theorem copyDir_mem_file (es : List (String × FSNode)) (name : String)
    (content : List Nat) :
    (name, FSNode.file content) ∈ es → (name, FSNode.file content) ∈ copyDir es := by
  induction es using copyDir.induct with
  | case1 => intro h; exact absurd h (List.not_mem_nil _)
  | case2 nm rest ih =>
    intro h
    rw [copyDir]
    rcases List.mem_cons.mp h with heq | hmem
    · exact absurd heq (by simp)
    · exact ih hmem
  | case3 nm sub rest ih1 ih2 =>
    intro h
    rw [copyDir]
    rcases List.mem_cons.mp h with heq | hmem
    · exact absurd heq (by simp)
    · exact List.mem_cons_of_mem _ (ih2 hmem)
  | case4 nm c rest ih =>
    intro h
    rw [copyDir]
    rcases List.mem_cons.mp h with heq | hmem
    · exact heq ▸ List.mem_cons_self _ _
    · exact List.mem_cons_of_mem _ (ih hmem)

theorem copyDir_mem_dir (es : List (String × FSNode)) (name : String)
    (sub0 : List (String × FSNode)) :
    (name, FSNode.dir sub0) ∈ es → (name, FSNode.dir (copyDir sub0)) ∈ copyDir es := by
  induction es using copyDir.induct with
  | case1 => intro h; exact absurd h (List.not_mem_nil _)
  | case2 nm rest ih =>
    intro h
    rw [copyDir]
    rcases List.mem_cons.mp h with heq | hmem
    · exact absurd heq (by simp)
    · exact ih hmem
  | case3 nm sub rest ih1 ih2 =>
    intro h
    rw [copyDir]
    rcases List.mem_cons.mp h with heq | hmem
    · simp only [Prod.mk.injEq, FSNode.dir.injEq] at heq
      obtain ⟨rfl, rfl⟩ := heq
      exact List.mem_cons_self _ _
    · exact List.mem_cons_of_mem _ (ih2 hmem)
  | case4 nm c rest ih =>
    intro h
    rw [copyDir]
    rcases List.mem_cons.mp h with heq | hmem
    · exact absurd heq (by simp)
    · exact List.mem_cons_of_mem _ (ih hmem)

theorem copyDir_names (es : List (String × FSNode)) :
    (copyDir es).map Prod.fst =
      (es.filter fun e => !isSpecialNode e.2).map Prod.fst := by
  induction es using copyDir.induct with
  | case1 => rw [copyDir]; rfl
  | case2 nm rest ih =>
    rw [copyDir]
    simpa [isSpecialNode] using ih
  | case3 nm sub rest ih1 ih2 =>
    rw [copyDir]
    simp [List.filter_cons, isSpecialNode, ih2]
  | case4 nm c rest ih =>
    rw [copyDir]
    simp [List.filter_cons, isSpecialNode, ih]

theorem copyDir_output_specialFree (es : List (String × FSNode)) :
    entriesSpecialFree (copyDir es) = true := by
  induction es using copyDir.induct with
  | case1 => rw [copyDir, entriesSpecialFree]
  | case2 nm rest ih => rw [copyDir]; exact ih
  | case3 nm sub rest ih1 ih2 => rw [copyDir]; simp [entriesSpecialFree, ih1, ih2]
  | case4 nm c rest ih => rw [copyDir]; simp [entriesSpecialFree, ih]

/-- C9: the recursive copy takes directories recursively and regular files
byte-for-byte into the destination; special files are silently skipped at
every depth: the destination names are exactly the non-special source
names (in order), the copied tree contains no special file anywhere, and
the named-pipe fixture copies only its regular files and directories. -/
theorem C9_copy_skips_special_files :
    (∀ es name content, (name, FSNode.file content) ∈ es →
       (name, FSNode.file content) ∈ copyDir es)
  ∧ (∀ es name sub, (name, FSNode.dir sub) ∈ es →
       (name, FSNode.dir (copyDir sub)) ∈ copyDir es)
  ∧ (∀ es : List (String × FSNode), (copyDir es).map Prod.fst =
       (es.filter fun e => !isSpecialNode e.2).map Prod.fst)
  ∧ (∀ es : List (String × FSNode), entriesSpecialFree (copyDir es) = true)
  ∧ copyDir pipeTree =
      [("libskia.a", FSNode.file [7, 7]),
       ("include", FSNode.dir [("skia.h", FSNode.file [1])])] :=
  ⟨copyDir_mem_file, copyDir_mem_dir, copyDir_names, copyDir_output_specialFree,
   by simp [copyDir, pipeTree]⟩

theorem C9_copy_skips_special_files_witness :
    ("libskia.a", FSNode.file [7, 7]) ∈ copyDir pipeTree
  ∧ copyDir pipeTree =
      [("libskia.a", FSNode.file [7, 7]),
       ("include", FSNode.dir [("skia.h", FSNode.file [1])])] :=
  ⟨C9_copy_skips_special_files.1 pipeTree "libskia.a" [7, 7] (by simp [pipeTree]),
   C9_copy_skips_special_files.2.2.2.2⟩

theorem runCommand_error_of_ne (exec : String → ExecOutcome) (c : String)
    (h : exec c ≠ ExecOutcome.exit 0) :
    ∃ err, runCommand exec c = Except.error err := by
  cases hc : exec c with
  | exit n =>
    cases n with
    | zero => exact absurd hc h
    | succ m =>
      exact ⟨⟨"Command " ++ c ++ " exited with code " ++ toString (m + 1), none⟩,
        by simp [runCommand, hc]⟩
  | spawnErr s =>
    exact ⟨⟨"spawn " ++ c ++ " " ++ s, some s⟩, by simp [runCommand, hc]⟩

theorem extractLoop_first_success (exec : String → ExecOutcome) (c : String)
    (post : List String) (hc : exec c = ExecOutcome.exit 0) :
    ∀ pre lastErr, (∀ p ∈ pre, exec p ≠ ExecOutcome.exit 0) →
      extractLoop exec (pre ++ c :: post) lastErr = (Except.ok (), pre ++ [c]) := by
  intro pre
  induction pre with
  | nil =>
    intro lastErr _
    simp [extractLoop, runCommand, hc]
  | cons p pre ih =>
    intro lastErr hfail
    obtain ⟨err, herr⟩ := runCommand_error_of_ne exec p (hfail p (by simp))
    have ih2 := fun l => ih l (fun q hq => hfail q (by simp [hq]))
    simp [extractLoop, herr, ih2]

theorem extractLoop_all_fail (exec : String → ExecOutcome) (c : String)
    (hc : exec c ≠ ExecOutcome.exit 0) :
    ∀ cs lastErr, (∀ d ∈ cs, exec d ≠ ExecOutcome.exit 0) →
      extractLoop exec (cs ++ [c]) lastErr =
        (Except.error ("Failed to extract: " ++ candidateFailureMessage exec c),
         cs ++ [c]) := by
  intro cs
  induction cs with
  | nil =>
    intro lastErr _
    obtain ⟨err, herr⟩ := runCommand_error_of_ne exec c hc
    cases hcode : err.code == some "ENOENT" <;>
      simp [extractLoop, herr, candidateFailureMessage, hcode]
  | cons d cs ih =>
    intro lastErr hfail
    obtain ⟨err, herr⟩ := runCommand_error_of_ne exec d (hfail d (by simp))
    have ih2 := fun l => ih l (fun q hq => hfail q (by simp [hq]))
    simp [extractLoop, herr, ih2]

/-- C7: `extractTarGz` tries the candidates in order and returns on the
first that exits zero, leaving later candidates untried; an `ENOENT`
failure is recorded as `Command <name> not found` and the loop continues;
when every candidate fails the operation fails with a diagnostic carrying
the message recorded for the last candidate; an extraction failure
propagates out of the fetch-and-stage operation immediately, with no
retry. -/
theorem C7_extract_candidates (exec : String → ExecOutcome) :
    (∀ pre c post, (∀ p ∈ pre, exec p ≠ ExecOutcome.exit 0) →
       exec c = ExecOutcome.exit 0 →
       extractTarGz exec (pre ++ c :: post) = (Except.ok (), pre ++ [c]))
  ∧ (∀ c rest lastErr, exec c = ExecOutcome.spawnErr "ENOENT" →
       extractLoop exec (c :: rest) lastErr =
         ((extractLoop exec rest (some ⟨"Command " ++ c ++ " not found", none⟩)).1,
          c :: (extractLoop exec rest
                  (some ⟨"Command " ++ c ++ " not found", none⟩)).2))
  ∧ (∀ cs c, (∀ d ∈ cs, exec d ≠ ExecOutcome.exit 0) →
       exec c ≠ ExecOutcome.exit 0 →
       extractTarGz exec (cs ++ [c]) =
         (Except.error ("Failed to extract: " ++ candidateFailureMessage exec c),
          cs ++ [c]))
  ∧ (∀ msg srcSubdir dest0,
       (downloadAndExtractAsset (Except.ok ()) (Except.error msg)
           srcSubdir dest0).outcome = Except.error (PipelineError.extract msg)) := by
  refine ⟨?_, ?_, ?_, ?_⟩
  · intro pre c post hfail hc
    exact extractLoop_first_success exec c post hc pre none hfail
  · intro c rest lastErr hc
    have herr : runCommand exec c =
        Except.error ⟨"spawn " ++ c ++ " " ++ "ENOENT", some "ENOENT"⟩ := by
      simp [runCommand, hc]
    simp [extractLoop, herr]
  · intro cs c hcs hc
    exact extractLoop_all_fail exec c hc cs none hcs
  · intro msg srcSubdir dest0
    simp [downloadAndExtractAsset, tryBody]

theorem C7_extract_candidates_witness :
    extractTarGz execSystem32 ["tar.exe", "C:\\Windows\\System32\\tar.exe"] =
        (Except.ok (), ["tar.exe", "C:\\Windows\\System32\\tar.exe"])
  ∧ extractTarGz execAllMissing ["tar"] =
      (Except.error "Failed to extract: Command tar not found", ["tar"]) :=
  ⟨(C7_extract_candidates execSystem32).1 ["tar.exe"] "C:\\Windows\\System32\\tar.exe" []
     (by intro p hp; simp at hp; subst hp; simp [execSystem32])
     (by simp [execSystem32]),
   (C7_extract_candidates execAllMissing).2.2.1 [] "tar"
     (by intro d hd; simp at hd)
     (by simp [execAllMissing])⟩

theorem anyArchInstalled_ok_true (entries : List (String × FSNode)) :
    ∀ (archs : List AndroidArchCfg) (cfg : AndroidArchCfg)
      (files : List (String × FSNode)),
      (∀ c ∈ archs, archEntryWellFormed entries c) →
      cfg ∈ archs → lookupEntry cfg.arch entries = some (FSNode.dir files) →
      (∃ f ∈ files, strEndsWith f.1 ".a" = true) →
      anyArchInstalled archs entries = Except.ok true := by
  intro archs
  induction archs with
  | nil => intro cfg files _ hmem; exact absurd hmem (List.not_mem_nil _)
  | cons a rest ih =>
    intro cfg files hwf hmem hlook hfa
    rcases List.mem_cons.mp hmem with rfl | hmem2
    · have hany : (files.any fun f => strEndsWith f.1 ".a") = true :=
        List.any_eq_true.mpr hfa
      simp [anyArchInstalled, archHasStaticLib, hlook, hany]
    · have ihrest := ih cfg files (fun c hc => hwf c (by simp [hc])) hmem2 hlook hfa
      rcases hwf a (by simp) with hnone | ⟨fs, hdir⟩
      · simp [anyArchInstalled, archHasStaticLib, hnone, ihrest]
      · cases hany : (fs.any fun f => strEndsWith f.1 ".a") with
        | true => simp [anyArchInstalled, archHasStaticLib, hdir, hany]
        | false => simp [anyArchInstalled, archHasStaticLib, hdir, hany, ihrest]

theorem archHasStaticLib_error_ne_nil (entries : List (String × FSNode))
    (cfg : AndroidArchCfg) (msg : String)
    (h : archHasStaticLib entries cfg = Except.error msg) : entries ≠ [] := by
  intro hnil
  rw [hnil] at h
  simp [archHasStaticLib, lookupEntry] at h

theorem anyArchInstalled_error (entries : List (String × FSNode)) (msg : String) :
    ∀ (pre : List AndroidArchCfg) (cfg : AndroidArchCfg)
      (post : List AndroidArchCfg),
      (∀ c ∈ pre, archHasStaticLib entries c = Except.ok false) →
      archHasStaticLib entries cfg = Except.error msg →
      anyArchInstalled (pre ++ cfg :: post) entries = Except.error msg := by
  intro pre
  induction pre with
  | nil =>
    intro cfg post _ herr
    simp [anyArchInstalled, herr]
  | cons a pre ih =>
    intro cfg post hok herr
    have ha := hok a (by simp)
    have ihr := ih cfg post (fun c hc => hok c (by simp [hc])) herr
    simp [anyArchInstalled, ha, ihr]

theorem C10_crash_counterexample :
    lookupEntry "arm64-v8a" crashAndroidLibs =
        some (FSNode.dir [("libskia.a", FSNode.file [0])])
  ∧ strEndsWith "libskia.a" ".a" = true
  ∧ isInstalled "android" ganeshAndroidArchs (some crashAndroidLibs) =
      Except.error "ENOTDIR"
  ∧ postinstallAction none "android" ganeshAndroidArchs (some crashAndroidLibs) =
      PostinstallAction.crash :=
  ⟨rfl, rfl, rfl, rfl⟩

/-- C10 (amended): with `SKIP_SKIA_DOWNLOAD` unset, when the `libs`
directory holds content recognized as installed — Android: a configured
architecture subdirectory listing a `.a` name, *provided* every configured
architecture name present in `libs` is a directory; Apple: a top-level
name ending in `.xcframework`; any other platform: a non-empty listing —
the postinstall entry point exits 0 before any download
(`PostinstallAction.alreadyInstalled`), leaving `libs` untouched; a
partially installed Android package counts as installed. If instead a
configured architecture entry exists as a non-directory and every earlier
configured architecture reports not-installed, `fs.readdirSync` raises
`ENOTDIR` outside any handler and the script crashes with a non-zero exit
rather than exiting 0. -/
theorem C10_already_installed :
    (∀ (archs : List AndroidArchCfg) (entries : List (String × FSNode))
       (cfg : AndroidArchCfg) (files : List (String × FSNode)),
       (∀ c ∈ archs, archEntryWellFormed entries c) →
       cfg ∈ archs → lookupEntry cfg.arch entries = some (FSNode.dir files) →
       (∃ f ∈ files, strEndsWith f.1 ".a" = true) →
       isInstalled "android" archs (some entries) = Except.ok true ∧
       postinstallAction none "android" archs (some entries) =
         PostinstallAction.alreadyInstalled)
  ∧ (∀ (archs : List AndroidArchCfg) (entries : List (String × FSNode)),
       (∃ e ∈ entries, strEndsWith e.1 ".xcframework" = true) →
       isInstalled "apple" archs (some entries) = Except.ok true ∧
       postinstallAction none "apple" archs (some entries) =
         PostinstallAction.alreadyInstalled)
  ∧ (∀ (p : String) (archs : List AndroidArchCfg)
       (entries : List (String × FSNode)),
       p ≠ "android" → p ≠ "apple" → entries ≠ [] →
       isInstalled p archs (some entries) = Except.ok true ∧
       postinstallAction none p archs (some entries) =
         PostinstallAction.alreadyInstalled)
  ∧ (∀ (pre : List AndroidArchCfg) (cfg : AndroidArchCfg)
       (post : List AndroidArchCfg) (entries : List (String × FSNode)),
       (∀ c ∈ pre, archHasStaticLib entries c = Except.ok false) →
       archHasStaticLib entries cfg = Except.error "ENOTDIR" →
       isInstalled "android" (pre ++ cfg :: post) (some entries) =
           Except.error "ENOTDIR" ∧
       postinstallAction none "android" (pre ++ cfg :: post) (some entries) =
         PostinstallAction.crash) := by
  refine ⟨?_, ?_, ?_, ?_⟩
  · intro archs entries cfg files hwf hmem hlook hfa
    have hne : entries ≠ [] := by
      intro h
      rw [h] at hlook
      simp [lookupEntry] at hlook
    have hinst : isInstalled "android" archs (some entries) = Except.ok true := by
      have hany := anyArchInstalled_ok_true entries archs cfg files hwf hmem hlook hfa
      simp [isInstalled, hne, hany]
    exact ⟨hinst, by simp [postinstallAction, skipEnvSet, hinst]⟩
  · intro archs entries hex
    have hne : entries ≠ [] := by
      intro h
      rw [h] at hex
      simp at hex
    have hany : (entries.any fun e => strEndsWith e.1 ".xcframework") = true :=
      List.any_eq_true.mpr hex
    have hinst : isInstalled "apple" archs (some entries) = Except.ok true := by
      simp [isInstalled, hne, hany]
    exact ⟨hinst, by simp [postinstallAction, skipEnvSet, hinst]⟩
  · intro p archs entries hp1 hp2 hne
    have hinst : isInstalled p archs (some entries) = Except.ok true := by
      simp [isInstalled, hne, hp1, hp2]
      exact List.length_pos.mpr hne
    exact ⟨hinst, by simp [postinstallAction, skipEnvSet, hinst]⟩
  · intro pre cfg post entries hok herr
    have hne : entries ≠ [] := archHasStaticLib_error_ne_nil entries cfg _ herr
    have hany := anyArchInstalled_error entries "ENOTDIR" pre cfg post hok herr
    have hinst : isInstalled "android" (pre ++ cfg :: post) (some entries) =
        Except.error "ENOTDIR" := by
      simp [isInstalled, hne, hany]
    exact ⟨hinst, by simp [postinstallAction, skipEnvSet, hinst]⟩

theorem C10_already_installed_witness :
    (isInstalled "android" ganeshAndroidArchs (some partialAndroidLibs) = Except.ok true
  ∧ postinstallAction none "android" ganeshAndroidArchs (some partialAndroidLibs) =
      PostinstallAction.alreadyInstalled)
  ∧ isInstalled "android" ganeshAndroidArchs (some crashAndroidLibs) =
      Except.error "ENOTDIR"
  ∧ postinstallAction none "android" ganeshAndroidArchs (some crashAndroidLibs) =
      PostinstallAction.crash :=
  ⟨C10_already_installed.1 ganeshAndroidArchs partialAndroidLibs
     ⟨"arm64-v8a", "skia-android-arm-64-skia-m144c.tar.gz", "arm64-v8a"⟩
     [("libskia.a", FSNode.file [0])]
     (by
       intro c hc
       fin_cases hc
       · exact Or.inl (by rfl)
       · exact Or.inr ⟨[("libskia.a", FSNode.file [0])], by rfl⟩
       · exact Or.inl (by rfl)
       · exact Or.inl (by rfl))
     (by simp [ganeshAndroidArchs])
     (by rfl)
     ⟨("libskia.a", FSNode.file [0]), by simp [partialAndroidLibs], by rfl⟩,
   (C10_already_installed.2.2.2 []
      ⟨"armeabi-v7a", "skia-android-arm-skia-m144c.tar.gz", "armeabi-v7a"⟩
      [⟨"arm64-v8a", "skia-android-arm-64-skia-m144c.tar.gz", "arm64-v8a"⟩,
       ⟨"x86", "skia-android-arm-x86-skia-m144c.tar.gz", "x86"⟩,
       ⟨"x86_64", "skia-android-arm-x64-skia-m144c.tar.gz", "x86_64"⟩]
      crashAndroidLibs (by intro c hc; exact absurd hc (List.not_mem_nil c))
      (by rfl)).1,
   (C10_already_installed.2.2.2 []
      ⟨"armeabi-v7a", "skia-android-arm-skia-m144c.tar.gz", "armeabi-v7a"⟩
      [⟨"arm64-v8a", "skia-android-arm-64-skia-m144c.tar.gz", "arm64-v8a"⟩,
       ⟨"x86", "skia-android-arm-x86-skia-m144c.tar.gz", "x86"⟩,
       ⟨"x86_64", "skia-android-arm-x64-skia-m144c.tar.gz", "x86_64"⟩]
      crashAndroidLibs (by intro c hc; exact absurd hc (List.not_mem_nil c))
      (by rfl)).2⟩

theorem C2_payload_discovery_witness :
    (downloadAndExtractAsset (Except.ok ())
        (Except.ok [("wrapper", FSNode.dir [("ios", FSNode.dir iosFrameworks)])])
        (some "ios") []).outcome = Except.ok ()
  ∧ (downloadAndExtractAsset (Except.ok ())
        (Except.ok [("wrapper", FSNode.dir [("ios", FSNode.dir iosFrameworks)])])
        (some "ios") []).dest = iosFrameworks
  ∧ resolveSourceDir [("wrapper", FSNode.dir [("ios", FSNode.file [1])])]
        (some "ios") = [("ios", FSNode.file [1])]
  ∧ resolveSrcDirArtifact [("wrapper", FSNode.dir [("ios", FSNode.file [1])])]
        "ios" = Except.error "ENOTDIR" :=
  ⟨(C2_payload_discovery.2.2.2.1 "wrapper" iosFrameworks
      (by simp [iosFrameworks, entriesSpecialFree])).1,
   (C2_payload_discovery.2.2.2.1 "wrapper" iosFrameworks
      (by simp [iosFrameworks, entriesSpecialFree])).2,
   (C2_payload_discovery.2.2.2.2.2.2 "wrapper" [("ios", FSNode.file [1])] "ios"
      (FSNode.file [1]) (by decide) rfl (fun d => by simp)).1,
   (C2_payload_discovery.2.2.2.2.2.2 "wrapper" [("ios", FSNode.file [1])] "ios"
      (FSNode.file [1]) (by decide) rfl (fun d => by simp)).2⟩

end SkiaBinaries
